/-
Verification of the message-to-record mapping engine of mqtt2influxdb
(src/mqtt2influxdb/mqtt2influxdb.py) against its design specification.

The development shallowly embeds the `_on_mqtt_message` handler and its
helper `_get_value_from_str_or_JSONPath` of class `Mqtt2InfluxDB`.
Python dicts holding JSON data are modelled by an inductive `JsonValue`
(numbers restricted to integers: no claim involves fractional numbers);
the third-party `jsonpath_ng` path language is modelled on the subset the
configuration uses (root `$`, dotted field access, bracket indexing);
`json.loads` is modelled by an executable fuelled JSON parser.
Exceptions escaping the handler are modelled by an explicit `ExnKind`
in the handler result; log calls at warning/error level are modelled as
an ordered list of `LogEvent`s.  The record's `time` field (wall-clock
`datetime.utcnow()`) is environment-dependent and is not modelled; no
claim concerns it.
-/
import Mathlib

namespace Mqtt2InfluxDB

/-- A JSON value as produced by `json.loads`, with numbers restricted to
integers (no claim involves fractional numbers). -/
inductive JsonValue where
  | null
  | bool (b : Bool)
  | num (n : Int)
  | str (s : String)
  | arr (elems : List JsonValue)
  | obj (entries : List (String × JsonValue))
deriving Inhabited

/-- One step of a `jsonpath_ng` path program: `.name` field access or
`[i]` array indexing. -/
inductive PathStep where
  | field (name : String)
  | index (i : Nat)
deriving Repr, DecidableEq

/-- A compiled `jsonpath_ng` path program: a root anchor followed by a
chain of child steps, as produced by `jsonpath_ng.parse` on the dotted
subset of the language used in the configuration. -/
structure JSONPath where
  steps : List PathStep
deriving Repr, DecidableEq

/-- Matches of a single path step against one JSON datum: a field step
selects the entry of that key in an object (nothing on other shapes), an
index step selects the element at that position in an array. -/
def stepFind (step : PathStep) (v : JsonValue) : List JsonValue :=
  match step, v with
  | .field n, .obj entries =>
    match entries.lookup n with
    | some w => [w]
    | none => []
  | .field _, _ => []
  | .index i, .arr elems =>
    match elems.get? i with
    | some w => [w]
    | none => []
  | .index _, _ => []

/-- `p.find v`: all matches of the path program `p` in document `v`, in
document order, as returned by `JSONPath.find` of `jsonpath_ng`. -/
def JSONPath.find (p : JSONPath) (v : JsonValue) : List JsonValue :=
  p.steps.foldl (fun acc step => acc.flatMap (stepFind step)) [v]

/-- A configuration value as passed to `_get_value_from_str_or_JSONPath`:
a Python `str`, a compiled `jsonpath_ng.JSONPath`, or a value of any
other type (the duck-typed fall-through). -/
inductive PyParam where
  | str (s : String)
  | jsonPath (p : JSONPath)
  | other
deriving Repr, DecidableEq

/-- Embeds `Mqtt2InfluxDB._get_value_from_str_or_JSONPath(param, msg)`:
a `str` is returned unchanged; for a `JSONPath`, `param.find(msg)` is
run and `tmp[0].value` returned when the match list is non-empty — when
that first matched value is JSON null, `tmp[0].value` is Python `None`,
indistinguishable from the fall-through "no value" return, so both are
`none` here; in every remaining case the function falls through and
returns `None`. -/
def getValueFromStrOrJSONPath (param : PyParam) (msg : JsonValue) : Option JsonValue :=
  match param with
  | .str s => some (.str s)
  | .jsonPath p =>
    match p.find msg with
    | [] => none
    | .null :: _ => none
    | v :: _ => some v
  | .other => none

/-- Modelled from the spec: the topic matcher is supplied by the external
MQTT client library (`paho.mqtt.client.topic_matches_sub`), whose code is
not part of this repository; modelled from §4.1 of the design: matching
is left to right over `/`-delimited segments, `#` as the final pattern
segment matches the remainder of the topic (zero or more segments), `+`
matches exactly one segment, a literal segment matches only an identical
segment, and exhaustion of either side otherwise fails the match. -/
def matchSegs : List String → List String → Bool
  | [], ts => ts.isEmpty
  | p :: ps, ts =>
    if p == "#" then
      -- `#` matches the remainder (zero or more segments) and must be
      -- the final pattern segment
      ps.isEmpty
    else
      match ts with
      | [] => false
      | t :: ts' => (p == "+" || p == t) && matchSegs ps ts'

/-- Helper of `splitSlash`: split the remaining characters on `/`, with
the characters of the current segment accumulated in reverse. -/
def splitSlashAux : List Char → List Char → List String
  | [], acc => [String.mk acc.reverse]
  | c :: cs, acc =>
    if c = '/' then String.mk acc.reverse :: splitSlashAux cs []
    else splitSlashAux cs (c :: acc)

/-- Python's `s.split('/')`: the `/`-delimited segments of a string
(adjacent separators give empty segments, the empty string gives one
empty segment). -/
def splitSlash (s : String) : List String :=
  splitSlashAux s.toList []

/-- `topic_matches_sub(sub, topic)` at the call site of the handler:
split both strings on `/` and match segment-wise. -/
def topicMatchesSub (pattern topic : String) : Bool :=
  matchSegs (splitSlash pattern) (splitSlash topic)

/-! ### A model of `json.loads`

`json.loads` is library code; it is modelled by an executable fuelled
recursive-descent parser over the JSON grammar (numbers restricted to
optionally signed integers, string escapes restricted to the common
single-character escapes; no claim exercises other forms).  `none`
models `json.loads` raising. -/

/-- Skip JSON whitespace. -/
def skipWs : List Char → List Char
  | c :: cs => if c = ' ' ∨ c = '\t' ∨ c = '\n' ∨ c = '\r' then skipWs cs else c :: cs
  | [] => []

/-- Parse the body of a JSON string after the opening quote, returning
the accumulated characters and the remainder after the closing quote. -/
def parseStringBody (fuel : Nat) (cs : List Char) (acc : List Char) :
    Option (String × List Char) :=
  match fuel, cs with
  | 0, _ => none
  | _, [] => none
  | fuel + 1, c :: rest =>
    if c = '"' then some (String.mk acc.reverse, rest)
    else if c = '\\' then
      match rest with
      | '"' :: rest2 => parseStringBody fuel rest2 ('"' :: acc)
      | '\\' :: rest2 => parseStringBody fuel rest2 ('\\' :: acc)
      | '/' :: rest2 => parseStringBody fuel rest2 ('/' :: acc)
      | 'n' :: rest2 => parseStringBody fuel rest2 ('\n' :: acc)
      | 't' :: rest2 => parseStringBody fuel rest2 ('\t' :: acc)
      | 'r' :: rest2 => parseStringBody fuel rest2 ('\r' :: acc)
      | _ => none
    else parseStringBody fuel rest (c :: acc)

/-- Parse a non-empty run of decimal digits as a natural number. -/
def parseDigits (cs : List Char) : Option (Nat × List Char) :=
  let digits := cs.takeWhile Char.isDigit
  if digits.isEmpty then none
  else some (digits.foldl (fun n c => n * 10 + (c.toNat - '0'.toNat)) 0,
             cs.drop digits.length)

mutual

/-- Parse one JSON value (after optional leading whitespace). -/
def parseJsonValue (fuel : Nat) (cs : List Char) : Option (JsonValue × List Char) :=
  match fuel with
  | 0 => none
  | fuel + 1 =>
    match skipWs cs with
    | 'n' :: 'u' :: 'l' :: 'l' :: rest => some (.null, rest)
    | 't' :: 'r' :: 'u' :: 'e' :: rest => some (.bool true, rest)
    | 'f' :: 'a' :: 'l' :: 's' :: 'e' :: rest => some (.bool false, rest)
    | '"' :: rest =>
      match parseStringBody fuel rest [] with
      | some (s, rest2) => some (.str s, rest2)
      | none => none
    | '-' :: rest =>
      match parseDigits rest with
      | some (n, rest2) => some (.num (-(n : Int)), rest2)
      | none => none
    | '[' :: rest =>
      match skipWs rest with
      | ']' :: rest2 => some (.arr [], rest2)
      | rest2 =>
        match parseJsonElems fuel rest2 with
        | some (elems, rest3) => some (.arr elems, rest3)
        | none => none
    | '{' :: rest =>
      match skipWs rest with
      | '}' :: rest2 => some (.obj [], rest2)
      | rest2 =>
        match parseJsonMembers fuel rest2 with
        | some (entries, rest3) => some (.obj entries, rest3)
        | none => none
    | c :: rest =>
      if c.isDigit then
        match parseDigits (c :: rest) with
        | some (n, rest2) => some (.num (n : Int), rest2)
        | none => none
      else none
    | [] => none

/-- Parse a non-empty comma-separated list of array elements and the
closing bracket. -/
def parseJsonElems (fuel : Nat) (cs : List Char) : Option (List JsonValue × List Char) :=
  match fuel with
  | 0 => none
  | fuel + 1 =>
    match parseJsonValue fuel cs with
    | none => none
    | some (v, rest) =>
      match skipWs rest with
      | ',' :: rest2 =>
        match parseJsonElems fuel rest2 with
        | some (vs, rest3) => some (v :: vs, rest3)
        | none => none
      | ']' :: rest2 => some ([v], rest2)
      | _ => none

/-- Parse a non-empty comma-separated list of object members and the
closing brace. -/
def parseJsonMembers (fuel : Nat) (cs : List Char) :
    Option (List (String × JsonValue) × List Char) :=
  match fuel with
  | 0 => none
  | fuel + 1 =>
    match skipWs cs with
    | '"' :: rest =>
      match parseStringBody fuel rest [] with
      | none => none
      | some (key, rest2) =>
        match skipWs rest2 with
        | ':' :: rest3 =>
          match parseJsonValue fuel rest3 with
          | none => none
          | some (v, rest4) =>
            match skipWs rest4 with
            | ',' :: rest5 =>
              match parseJsonMembers fuel rest5 with
              | some (entries, rest6) => some ((key, v) :: entries, rest6)
              | none => none
            | '}' :: rest5 => some ([(key, v)], rest5)
            | _ => none
        | _ => none
    | _ => none

end

/-- `json.loads(s)`: parse one JSON document covering the whole input
(up to whitespace); `none` models the `json.loads` call raising. -/
def jsonLoads (s : String) : Option JsonValue :=
  match parseJsonValue (s.length + 1) s.toList with
  | some (v, rest) => if (skipWs rest).isEmpty then some v else none
  | none => none

/-! ### A model of `jsonpath_ng.parse`

`jsonpath_ng.parse` is library code; it is modelled on the subset of the
path language the configuration uses: an optional root anchor `$`
followed by dotted field steps `.name` and bracket index steps `[i]`, or
a bare field name followed by such steps.  `none` models the parse call
raising (invalid path syntax). -/

/-- Parse a path identifier: a letter or underscore followed by
alphanumerics or underscores. -/
def parsePathName (cs : List Char) : Option (String × List Char) :=
  match cs with
  | c :: _ =>
    if c.isAlpha ∨ c = '_' then
      let body := cs.takeWhile (fun d => d.isAlphanum ∨ d = '_')
      some (String.mk body, cs.drop body.length)
    else none
  | [] => none

/-- Parse a chain of `.name` and `[i]` steps up to the end of input. -/
def parsePathSteps (fuel : Nat) (cs : List Char) : Option (List PathStep) :=
  match fuel, cs with
  | _, [] => some []
  | 0, _ => none
  | fuel + 1, '.' :: rest =>
    match parsePathName rest with
    | some (n, rest2) => (parsePathSteps fuel rest2).map (PathStep.field n :: ·)
    | none => none
  | fuel + 1, '[' :: rest =>
    match parseDigits rest with
    | some (i, ']' :: rest2) => (parsePathSteps fuel rest2).map (PathStep.index i :: ·)
    | _ => none
  | _, _ => none

/-- `jsonpath_ng.parse(s)` on the modelled subset: `none` models the
call raising on invalid path syntax. -/
def jsonpathParse (s : String) : Option JSONPath :=
  match s.toList with
  | [] => none
  | '$' :: rest => (parsePathSteps (s.length + 1) rest).map JSONPath.mk
  | c :: cs =>
    if c = '[' then (parsePathSteps (s.length + 1) (c :: cs)).map JSONPath.mk
    else
      match parsePathName (c :: cs) with
      | some (n, rest) =>
        (parsePathSteps (s.length + 1) rest).map (fun ss => ⟨PathStep.field n :: ss⟩)
      | none => none

/-! ### The message handler `_on_mqtt_message` -/

/-- The raw payload bytes of an incoming MQTT message: either bytes that
decode to a UTF-8 string, or bytes on which `.decode('utf-8')` raises
`UnicodeDecodeError`. -/
inductive PayloadBytes where
  | utf8 (s : String)
  | invalidUtf8
deriving Repr, DecidableEq

/-- An incoming MQTT message as delivered to `_on_mqtt_message`. -/
structure MqttMessage where
  topic : String
  payload : PayloadBytes
  timestamp : Int
  qos : Int
deriving Repr, DecidableEq

/-- A configured mapping rule (one entry of `config['points']`).
`fields` and `tags` are `none` when the corresponding key is absent from
the point dictionary (the handler tests `'fields' in point` and
`'tags' in point`); their lists keep the insertion order of the Python
dict.  `measurement` is the raw configuration value handed unparsed to
`_get_value_from_str_or_JSONPath`. -/
structure Point where
  topic : String
  measurement : PyParam
  fields : Option (List (String × String))
  tags : Option (List (String × String))
  database : Option String

/-- A record handed to `influxdb.write_points`.  The `time` entry
(wall-clock `datetime.utcnow()` at mapping time) is environment
dependent and not modelled. -/
structure Record where
  measurement : JsonValue
  tags : List (String × JsonValue)
  fields : List (String × JsonValue)
  database : Option String

/-- A warning- or error-level log call made by the handler. -/
inductive LogEvent where
  | parseJsonError (topic : String) (payload : String)
  | unknownMeasurement
  | emptyFields
  | differentFieldCount
  | differentTagCount
deriving Repr, DecidableEq

/-- An exception escaping `_on_mqtt_message` uncaught. -/
inductive ExnKind where
  | unicodeDecodeError
  | jsonpathParseError
  | keyError
deriving Repr, DecidableEq

/-- The observable outcome of one `_on_mqtt_message` call: the records
passed to `write_points` in order, the warning/error log calls in
order, and the exception escaping the handler, if any. -/
structure HandlerResult where
  written : List Record
  logs : List LogEvent
  exn : Option ExnKind

/-- The outcome of processing one matching point against the built
envelope: a record to write (processing continues with the next point),
an early `return` from the handler (skipping all later points), or an
uncaught exception. -/
inductive StepOutcome where
  | wrote (r : Record) (warns : List LogEvent)
  | skipped (warns : List LogEvent)
  | raised (e : ExnKind) (warns : List LogEvent)

/-- The `payload == ''` normalisation of the handler: an empty decoded
payload is replaced by the text `"null"` before `json.loads`. -/
def payloadText (s : String) : String :=
  if s = "" then "null" else s

/-- The message envelope dict built by the handler: topic split on `/`,
parsed payload, timestamp and QoS. -/
def buildMsg (topic : String) (payload : JsonValue) (timestamp qos : Int) : JsonValue :=
  .obj [("topic", .arr ((splitSlash topic).map .str)),
        ("payload", payload),
        ("timestamp", .num timestamp),
        ("qos", .num qos)]

/-- The extraction loop shared by fields and tags: for each configured
key in order, compile its path source with `jsonpath_ng.parse` (raising
on invalid syntax) and evaluate it against the envelope; keys whose
evaluation yields `None` are skipped (`continue`), the rest are added in
order. -/
def extractSpecs (specs : List (String × String)) (msg : JsonValue) :
    Except ExnKind (List (String × JsonValue)) :=
  match specs with
  | [] => .ok []
  | (key, src) :: rest =>
    match jsonpathParse src with
    | none => .error .jsonpathParseError
    | some p =>
      match getValueFromStrOrJSONPath (.jsonPath p) msg with
      | none => extractSpecs rest msg
      | some v => (extractSpecs rest msg).map (fun tl => (key, v) :: tl)

/-- The per-point body of the handler loop, given the built envelope
`msg`: resolve the measurement (warn and `return` when `None`), extract
the fields (warn and `return` when empty, warn and proceed on a count
mismatch), extract the tags when `'tags' in point` and then evaluate
`len(point['tags'])` unconditionally — a `KeyError` when the key is
absent — warning on a count mismatch, and finally build the record for
`write_points`. -/
def processPoint (point : Point) (msg : JsonValue) : StepOutcome :=
  match getValueFromStrOrJSONPath point.measurement msg with
  | none => .skipped [.unknownMeasurement]
  | some mval =>
    match extractSpecs (point.fields.getD []) msg with
    | .error e => .raised e []
    | .ok fieldVals =>
      if fieldVals.isEmpty then .skipped [.emptyFields]
      else
        match point.fields with
        | none =>
          -- `len(point['fields'])` with `'fields'` absent; unreachable:
          -- a non-empty extraction requires a non-empty spec list
          .raised .keyError []
        | some fieldSpecs =>
          let ws1 := if fieldVals.length ≠ fieldSpecs.length
                     then [LogEvent.differentFieldCount] else []
          match point.tags with
          | some tagSpecs =>
            match extractSpecs tagSpecs msg with
            | .error e => .raised e ws1
            | .ok tagVals =>
              let ws2 := if tagVals.length ≠ tagSpecs.length
                         then [LogEvent.differentTagCount] else []
              .wrote ⟨mval, tagVals, fieldVals, point.database⟩ (ws1 ++ ws2)
          | none =>
            -- the tag loop is guarded by `'tags' in point`, but
            -- `len(point['tags'])` is evaluated unconditionally: KeyError
            .raised .keyError ws1

/-- Failure of envelope construction: `UnicodeDecodeError` from
`.decode('utf-8')` (outside the `try`, hence uncaught), or a caught
`json.loads` failure carrying the decoded text for the diagnostic. -/
inductive BuildFail where
  | decodeFail
  | parseFail (s : String)

/-- The `if not msg:` lazy envelope construction at the first matching
point: reuse the already-built envelope, otherwise decode the payload
(raising on invalid UTF-8), normalise an empty text to `"null"`, parse
it as JSON (a caught, logged failure) and build the envelope dict. -/
def buildOrReuse (message : MqttMessage) : Option JsonValue → Except BuildFail JsonValue
  | some m => .ok m
  | none =>
    match message.payload with
    | .invalidUtf8 => .error .decodeFail
    | .utf8 s =>
      match jsonLoads (payloadText s) with
      | none => .error (.parseFail s)
      | some v => .ok (buildMsg message.topic v message.timestamp message.qos)

/-- The `for point in self._points:` loop of `_on_mqtt_message`:
non-matching points are passed over; at a matching point the envelope is
built if not yet available (a decode failure escapes as an exception, a
JSON parse failure logs the error with topic and raw payload and
`return`s), then the point is processed — a written record continues the
loop with the shared envelope, a skip `return`s from the handler, an
exception propagates. -/
def processLoop (message : MqttMessage) :
    List Point → Option JsonValue → List Record → List LogEvent → HandlerResult
  | [], _, recs, logs => ⟨recs, logs, none⟩
  | point :: rest, msgOpt, recs, logs =>
    if topicMatchesSub point.topic message.topic then
      match buildOrReuse message msgOpt with
      | .error .decodeFail => ⟨recs, logs, some .unicodeDecodeError⟩
      | .error (.parseFail s) => ⟨recs, logs ++ [.parseJsonError message.topic s], none⟩
      | .ok m =>
        match processPoint point m with
        | .wrote r ws => processLoop message rest (some m) (recs ++ [r]) (logs ++ ws)
        | .skipped ws => ⟨recs, logs ++ ws, none⟩
        | .raised e ws => ⟨recs, logs ++ ws, some e⟩
    else processLoop message rest msgOpt recs logs

/-- Embeds `Mqtt2InfluxDB._on_mqtt_message(client, userdata, message)`
for a configured rule list `points`. -/
def onMqttMessage (points : List Point) (message : MqttMessage) : HandlerResult :=
  processLoop message points none [] []

/-! ### Concrete configurations and messages used in witnesses and
counterexamples -/

/-- The end-to-end scenario rule of the specification. -/
def sensorPoint : Point :=
  ⟨"sensors/+/temp", .str "temperature",
   some [("value", "$.payload.value")], some [("sensor", "$.topic[1]")], none⟩

/-- The end-to-end scenario message (integer-valued payload). -/
def sensorMsg : MqttMessage :=
  ⟨"sensors/kitchen/temp", .utf8 "\x7b\"value\": 21\x7d", 0, 0⟩

/-- A rule matching the same pattern whose only field path finds nothing
in the scenario message, so its extracted field set is empty. -/
def sensorEmptyFieldsPoint : Point :=
  ⟨"sensors/+/temp", .str "m2", some [("value", "$.payload.missing")], some [], none⟩

/-! ### Helper lemmas on the topic matcher -/

/-- A pattern whose only remaining segment is `#` matches any remaining
topic segments, including none. -/
theorem matchSegs_hash (ts : List String) : matchSegs ["#"] ts = true := by
  simp [matchSegs]

/-- A `+` pattern segment consumes exactly one topic segment. -/
theorem matchSegs_plus_cons (ps ts : List String) (t : String) :
    matchSegs ("+" :: ps) (t :: ts) = matchSegs ps ts := by
  simp [matchSegs]

/-- A `+` pattern segment fails on an exhausted topic. -/
theorem matchSegs_plus_nil (ps : List String) : matchSegs ("+" :: ps) [] = false := by
  simp [matchSegs]

/-- A literal pattern segment matches only an identical topic segment,
matching continuing on the rests. -/
theorem matchSegs_lit (p t : String) (ps ts : List String)
    (hhash : p ≠ "#") (hplus : p ≠ "+") :
    matchSegs (p :: ps) (t :: ts) = (p == t && matchSegs ps ts) := by
  have h1 : (p == "#") = false := by simpa using hhash
  have h2 : (p == "+") = false := by simpa using hplus
  simp [matchSegs, h1, h2]

/-- The `#` pattern alone matches every topic. -/
theorem topicMatchesSub_hash (topic : String) : topicMatchesSub "#" topic = true := by
  have h : splitSlash "#" = ["#"] := by decide
  unfold topicMatchesSub
  rw [h]
  exact matchSegs_hash _

/-- C4: the topic matcher satisfies the five stated vectors, and in
general a final `#` pattern segment matches any remainder (zero or more
segments), `+` matches exactly one segment (failing on an exhausted
topic), and a literal segment matches only an identical segment. -/
theorem c4_topic_matcher :
    (topicMatchesSub "a/+/c" "a/b/c" = true ∧
     topicMatchesSub "a/+/c" "a/b/b/c" = false ∧
     topicMatchesSub "a/#" "a/b/c" = true ∧
     topicMatchesSub "a/#" "a" = true ∧
     topicMatchesSub "a/+" "a" = false) ∧
    (∀ ts : List String, matchSegs ["#"] ts = true) ∧
    (∀ (ps ts : List String) (t : String),
      matchSegs ("+" :: ps) (t :: ts) = matchSegs ps ts) ∧
    (∀ ps : List String, matchSegs ("+" :: ps) [] = false) ∧
    (∀ (p t : String) (ps ts : List String), p ≠ "#" → p ≠ "+" →
      matchSegs (p :: ps) (t :: ts) = (p == t && matchSegs ps ts)) :=
  ⟨⟨by decide, by decide, by decide, by decide, by decide⟩,
   matchSegs_hash, matchSegs_plus_cons, matchSegs_plus_nil,
   fun p t ps ts h1 h2 => matchSegs_lit p t ps ts h1 h2⟩

/-- Witness for C4 at concrete inputs: the literal-segment clause at
`p = "x"` combined with the `#` clause. -/
theorem c4_topic_matcher_witness :
    matchSegs ["x", "#"] ["x", "a", "b"] = (("x" == "x") && matchSegs ["#"] ["a", "b"]) ∧
    matchSegs ["#"] ["a", "b"] = true := by
  have h := c4_topic_matcher
  exact ⟨h.2.2.2.2 "x" "x" ["#"] ["a", "b"] (by decide) (by decide),
         h.2.1 ["a", "b"]⟩

/-- Counterexample to C5: the path `payload` on the envelope fragment
`\x7b"payload": null\x7d` *does* have a first matching value (JSON
null), yet evaluation returns no value — `tmp[0].value` is Python
`None`, indistinguishable from the fall-through "no match" return — so
"evaluation returns the first matching value, or nothing when the path
finds no match" is false at this input. -/
theorem c5_null_match_counterexample :
    JSONPath.find ⟨[.field "payload"]⟩ (.obj [("payload", .null)]) = [.null] ∧
    getValueFromStrOrJSONPath (.jsonPath ⟨[.field "payload"]⟩)
      (.obj [("payload", .null)]) = none :=
  ⟨rfl, rfl⟩

/-- C5 amended: a literal string expression evaluates to exactly itself
for every envelope; a compiled path program evaluates to the first
matching value unless that value is JSON null — a null first match is
returned as Python `None` and is indistinguishable from no match — and
evaluates to `None` when the path finds no match (evaluation is a total
function, so it never throws). -/
theorem c5_literal_and_path_evaluation_amended :
    (∀ (s : String) (env : JsonValue),
      getValueFromStrOrJSONPath (.str s) env = some (.str s)) ∧
    (∀ (p : JSONPath) (env : JsonValue),
      p.find env = [] → getValueFromStrOrJSONPath (.jsonPath p) env = none) ∧
    (∀ (p : JSONPath) (env : JsonValue) (rest : List JsonValue),
      p.find env = .null :: rest →
      getValueFromStrOrJSONPath (.jsonPath p) env = none) ∧
    (∀ (p : JSONPath) (env v : JsonValue) (rest : List JsonValue),
      p.find env = v :: rest → v ≠ .null →
      getValueFromStrOrJSONPath (.jsonPath p) env = some v) := by
  refine ⟨fun s env => rfl, ?_, ?_, ?_⟩
  · intro p env h
    simp [getValueFromStrOrJSONPath, h]
  · intro p env rest h
    simp [getValueFromStrOrJSONPath, h]
  · intro p env v rest h hne
    cases v with
    | null => exact absurd rfl hne
    | bool b => simp [getValueFromStrOrJSONPath, h]
    | num n => simp [getValueFromStrOrJSONPath, h]
    | str s => simp [getValueFromStrOrJSONPath, h]
    | arr xs => simp [getValueFromStrOrJSONPath, h]
    | obj kvs => simp [getValueFromStrOrJSONPath, h]

/-- Witness for C5 amended: the no-match, null-first-match and
non-null-first-match clauses at concrete inputs. -/
theorem c5_literal_and_path_evaluation_amended_witness :
    getValueFromStrOrJSONPath (.jsonPath ⟨[.field "missing"]⟩) (.obj []) = none ∧
    getValueFromStrOrJSONPath (.jsonPath ⟨[.field "v"]⟩)
      (.obj [("v", .null), ("w", .num 2)]) = none ∧
    getValueFromStrOrJSONPath (.jsonPath ⟨[.field "x"]⟩)
      (.obj [("x", .num 1)]) = some (.num 1) :=
  ⟨c5_literal_and_path_evaluation_amended.2.1 ⟨[.field "missing"]⟩ (.obj []) rfl,
   c5_literal_and_path_evaluation_amended.2.2.1 ⟨[.field "v"]⟩
     (.obj [("v", .null), ("w", .num 2)]) [] rfl,
   c5_literal_and_path_evaluation_amended.2.2.2 ⟨[.field "x"]⟩
     (.obj [("x", .num 1)]) (.num 1) [] rfl (by intro h; cases h)⟩

/-! ### C1: records are only written with a non-empty field set -/

/-- A record can only come out of the per-point step with a non-empty
field set: the write branch is guarded by the `if not record['fields']`
check. -/
theorem processPoint_wrote_fields_ne_nil (point : Point) (msg : JsonValue)
    (r : Record) (ws : List LogEvent)
    (h : processPoint point msg = .wrote r ws) : r.fields ≠ [] := by
  unfold processPoint at h
  repeat' split at h
  all_goals cases h
  all_goals simp_all [List.isEmpty_iff]

/-- Every record the loop hands to `write_points` has a non-empty field
set, provided the already-written accumulator does. -/
theorem processLoop_written_fields (message : MqttMessage) :
    ∀ (pts : List Point) (msgOpt : Option JsonValue) (recs : List Record)
      (logs : List LogEvent),
    (∀ r ∈ recs, r.fields ≠ []) →
    ∀ r ∈ (processLoop message pts msgOpt recs logs).written, r.fields ≠ [] := by
  intro pts
  induction pts with
  | nil =>
    intro msgOpt recs logs hrecs r hr
    exact hrecs r hr
  | cons point rest ih =>
    intro msgOpt recs logs hrecs r hr
    rw [processLoop] at hr
    split at hr
    · split at hr
      · exact hrecs r hr
      · exact hrecs r hr
      · split at hr
        · rename_i hstep
          refine ih _ _ _ ?_ r hr
          intro r' hr'
          rcases List.mem_append.mp hr' with hmem | hmem
          · exact hrecs _ hmem
          · rcases List.mem_singleton.mp hmem with rfl
            exact processPoint_wrote_fields_ne_nil _ _ _ _ hstep
        · exact hrecs r hr
        · exact hrecs r hr
    · exact ih _ _ _ hrecs r hr

/-- C1: for every rule set and every message, a record is only ever
handed to the sink with a non-empty field set; and whenever a matching
rule's field extraction yields the empty field set, the rule produces no
record — the handler logs the `empty fields` warning and returns. -/
theorem c1_record_nonempty_fields :
    (∀ (points : List Point) (message : MqttMessage) (r : Record),
      r ∈ (onMqttMessage points message).written → r.fields ≠ []) ∧
    (∀ (point : Point) (msg : JsonValue) (mval : JsonValue),
      getValueFromStrOrJSONPath point.measurement msg = some mval →
      extractSpecs (point.fields.getD []) msg = .ok [] →
      processPoint point msg = .skipped [.emptyFields]) := by
  constructor
  · intro points message r hr
    exact processLoop_written_fields message points none [] [] (by simp) r hr
  · intro point msg mval hm he
    unfold processPoint
    rw [hm, he]
    rfl

/-- Witness for C1: the end-to-end scenario record has a non-empty
field set, and the empty-extraction rule is skipped with the warning. -/
theorem c1_record_nonempty_fields_witness :
    ((⟨.str "temperature", [("sensor", .str "kitchen")], [("value", .num 21)], none⟩ :
        Record).fields ≠ []) ∧
    processPoint sensorEmptyFieldsPoint
      (buildMsg "sensors/kitchen/temp" (.obj [("value", .num 21)]) 0 0) =
      .skipped [.emptyFields] := by
  constructor
  · refine c1_record_nonempty_fields.1 [sensorPoint] sensorMsg _ ?_
    have h : (onMqttMessage [sensorPoint] sensorMsg).written =
        [⟨.str "temperature", [("sensor", .str "kitchen")], [("value", .num 21)], none⟩] := rfl
    rw [h]
    exact List.mem_singleton_self _
  · exact c1_record_nonempty_fields.2 sensorEmptyFieldsPoint _ (.str "m2") rfl rfl

/-! ### C2: per-rule failures are not isolated — a failing rule aborts
the whole message -/

/-- Counterexample to C2: both rules match the scenario topic; the
second rule alone produces a record, but when the first rule's
extracted field set is empty the handler `return`s, so the later rule
is never processed and nothing is written. -/
theorem c2_failure_not_isolated_counterexample :
    onMqttMessage [sensorEmptyFieldsPoint, sensorPoint] sensorMsg =
      ⟨[], [.emptyFields], none⟩ ∧
    (onMqttMessage [sensorPoint] sensorMsg).written =
      [⟨.str "temperature", [("sensor", .str "kitchen")], [("value", .num 21)], none⟩] ∧
    topicMatchesSub sensorPoint.topic sensorMsg.topic = true :=
  ⟨rfl, rfl, by decide⟩

/-- C2 amended: when a matching rule is skipped (unresolved measurement
or empty field set), the handler `return`s at once: the skipped rule
produces no record, no later rule is processed — the outcome does not
depend on the remaining rules at all — and records already written for
earlier rules are unaffected. -/
theorem c2_failing_rule_aborts_message (message : MqttMessage) (m : JsonValue)
    (point : Point) (rest : List Point) (recs : List Record)
    (logs ws : List LogEvent)
    (hmatch : topicMatchesSub point.topic message.topic = true)
    (hskip : processPoint point m = .skipped ws) :
    processLoop message (point :: rest) (some m) recs logs =
      ⟨recs, logs ++ ws, none⟩ := by
  rw [processLoop, hmatch]
  simp only [if_true, buildOrReuse, hskip]

/-- Witness for C2 amended: the empty-fields rule aborts processing
whatever rules follow it. -/
theorem c2_failing_rule_aborts_message_witness :
    processLoop sensorMsg [sensorEmptyFieldsPoint, sensorPoint]
      (some (buildMsg "sensors/kitchen/temp" (.obj [("value", .num 21)]) 0 0)) [] [] =
      ⟨[], [.emptyFields], none⟩ :=
  c2_failing_rule_aborts_message sensorMsg _ sensorEmptyFieldsPoint [sensorPoint]
    [] [] [.emptyFields] (by decide) rfl

/-! ### C3: invalid JSON payloads -/

/-- A rule whose pattern does not match the counterexample topic. -/
def c3NonMatchingPoint : Point :=
  ⟨"x/y", .str "m", some [("a", "$.payload.x")], some [], none⟩

/-- Counterexample to C3: for a message with a non-JSON payload whose
topic matches no configured rule, the payload is never parsed, so the
handler emits no diagnostic at all — the claim's unconditional "dropped
with a diagnostic that carries the topic and the raw payload" fails. -/
theorem c3_missing_diagnostic_counterexample :
    jsonLoads "\x7b\"value\":" = none ∧
    topicMatchesSub "x/y" "a/b" = false ∧
    onMqttMessage [c3NonMatchingPoint] ⟨"a/b", .utf8 "\x7b\"value\":", 0, 0⟩ =
      ⟨[], [], none⟩ :=
  ⟨rfl, by decide, rfl⟩

/-- The loop on a non-JSON payload, given at least one matching rule
ahead: at the first matching rule the `json.loads` failure is caught,
the error is logged with topic and raw payload, and the handler
`return`s with nothing written beyond the accumulator. -/
theorem processLoop_parse_fail (message : MqttMessage) (s : String)
    (hpayload : message.payload = .utf8 s) (hne : s ≠ "")
    (hbad : jsonLoads s = none) :
    ∀ (pts : List Point) (recs : List Record) (logs : List LogEvent),
    (∃ p ∈ pts, topicMatchesSub p.topic message.topic = true) →
    processLoop message pts none recs logs =
      ⟨recs, logs ++ [.parseJsonError message.topic s], none⟩ := by
  intro pts
  induction pts with
  | nil =>
    intro recs logs h
    rcases h with ⟨p, hp, _⟩
    cases hp
  | cons point rest ih =>
    intro recs logs h
    rw [processLoop]
    by_cases hm : topicMatchesSub point.topic message.topic = true
    · rw [hm]
      have hb : buildOrReuse message none = .error (.parseFail s) := by
        simp only [buildOrReuse, hpayload, payloadText, if_neg hne, hbad]
      simp only [if_true, hb]
    · rw [if_neg hm]
      refine ih recs logs ?_
      rcases h with ⟨p, hp, hpt⟩
      rcases List.mem_cons.mp hp with rfl | hmem
      · exact absurd hpt hm
      · exact ⟨p, hmem, hpt⟩

/-- C3 amended: for every message whose payload decodes to text that is
not valid JSON, *provided at least one configured rule's pattern matches
the topic*, the message is dropped with a single error diagnostic
carrying the topic and the raw payload, no record is produced for any
rule, and the handler returns normally; when no rule matches, the
payload is never parsed and the message is ignored without any
diagnostic (still no record, still a normal return). -/
theorem c3_invalid_json_drop_amended (points : List Point)
    (message : MqttMessage) (s : String)
    (hpayload : message.payload = .utf8 s) (hne : s ≠ "")
    (hbad : jsonLoads s = none)
    (hmatch : ∃ p ∈ points, topicMatchesSub p.topic message.topic = true) :
    onMqttMessage points message =
      ⟨[], [.parseJsonError message.topic s], none⟩ :=
  processLoop_parse_fail message s hpayload hne hbad points [] [] hmatch

/-- Witness for C3 amended at the spec's malformed-payload scenario. -/
theorem c3_invalid_json_drop_amended_witness :
    onMqttMessage [sensorPoint] ⟨"sensors/kitchen/temp", .utf8 "\x7b\"value\":", 0, 0⟩ =
      ⟨[], [.parseJsonError "sensors/kitchen/temp" "\x7b\"value\":"], none⟩ :=
  c3_invalid_json_drop_amended [sensorPoint] _ "\x7b\"value\":" rfl (by decide) rfl
    ⟨sensorPoint, List.mem_singleton_self _, by decide⟩

/-! ### C6: when path expressions are compiled -/

/-- A rule whose field path source has invalid path syntax. -/
def c6InvalidPathPoint : Point :=
  ⟨"t", .str "m", some [("a", "$.[")], some [], none⟩

/-- Counterexample to C6: a rule with a syntactically invalid field
path is not rejected at configuration-load time — startup compiles no
path expression and raises no ConfigError — and the malformed
expression first surfaces as a failure during message processing:
`jsonpath_ng.parse` is invoked inside the message handler and its
failure escapes as an uncaught exception on the first matching
message. -/
theorem c6_message_time_compile_counterexample :
    jsonpathParse "$.[" = none ∧
    onMqttMessage [c6InvalidPathPoint] ⟨"t", .utf8 "\x7b\x7d", 0, 0⟩ =
      ⟨[], [], some .jsonpathParseError⟩ :=
  ⟨rfl, rfl⟩

/-- C6 amended: field and tag path expressions are compiled inside the
message handler, during extraction, anew for every processed message;
there is no configuration-load-time compilation and no ConfigError — a
rule whose field path source does not parse raises an uncaught
exception while each matching message is processed (here: whenever the
rule's measurement resolves, whatever the envelope). -/
theorem c6_paths_compiled_per_message_amended (point : Point)
    (m mval : JsonValue) (key src : String) (rest : List (String × String))
    (hm : getValueFromStrOrJSONPath point.measurement m = some mval)
    (hf : point.fields = some ((key, src) :: rest))
    (hbad : jsonpathParse src = none) :
    processPoint point m = .raised .jsonpathParseError [] := by
  simp only [processPoint, hm, hf, Option.getD_some, extractSpecs, hbad]

/-- Witness for C6 amended at the invalid-path rule. -/
theorem c6_paths_compiled_per_message_amended_witness :
    processPoint c6InvalidPathPoint (buildMsg "t" (.obj []) 0 0) =
      .raised .jsonpathParseError [] :=
  c6_paths_compiled_per_message_amended c6InvalidPathPoint _ (.str "m")
    "a" "$.[" [] rfl rfl rfl

/-! ### C7: partial field extraction -/

/-- The claim's rule, verbatim: fields `{a: "$.x", b: "$.y"}` (with a
declared empty tag mapping, so the tag step cannot interfere). -/
def c7ClaimPoint : Point :=
  ⟨"t", .str "m", some [("a", "$.x"), ("b", "$.y")], some [], none⟩

/-- The claim's rule with the paths addressed through the payload. -/
def c7PayloadPathPoint : Point :=
  ⟨"t", .str "m", some [("a", "$.payload.x"), ("b", "$.payload.y")], some [], none⟩

/-- The payload-addressed rule without a `tags` key. -/
def c7NoTagsPoint : Point :=
  ⟨"t", .str "m", some [("a", "$.payload.x"), ("b", "$.payload.y")], none, none⟩

/-- The claim's message: payload `{"x": 1}`. -/
def c7Msg : MqttMessage := ⟨"t", .utf8 "\x7b\"x\": 1\x7d", 0, 0⟩

/-- Counterexample to C7: the claim's own rule `{a: "$.x", b: "$.y"}`
on payload `{"x": 1}` produces no record at all — field paths evaluate
against the whole envelope `{topic, payload, timestamp, qos}`, so
`$.x` finds nothing and the extracted field set is empty; and even with
payload-addressed paths, a rule without a `tags` key logs the count
diagnostic but then raises, so no record is produced either. -/
theorem c7_partial_extraction_counterexample :
    onMqttMessage [c7ClaimPoint] c7Msg = ⟨[], [.emptyFields], none⟩ ∧
    onMqttMessage [c7NoTagsPoint] c7Msg =
      ⟨[], [.differentFieldCount], some .keyError⟩ :=
  ⟨rfl, rfl⟩

/-- C7 amended: in the extraction loop, a key whose path evaluation
yields no value is omitted while the remaining keys are kept in order;
field paths are evaluated against the envelope, so payload values are
addressed via `$.payload...`; and a rule with fields
`{a: "$.payload.x", b: "$.payload.y"}` and a declared (empty) tag
mapping applied to payload `{"x": 1}` produces a record whose field set
is exactly `{a: 1}` together with the non-fatal count-mismatch
diagnostic. -/
theorem c7_partial_extraction_amended :
    (∀ (msg : JsonValue) (key src : String) (rest : List (String × String))
       (p : JSONPath),
      jsonpathParse src = some p →
      getValueFromStrOrJSONPath (.jsonPath p) msg = none →
      extractSpecs ((key, src) :: rest) msg = extractSpecs rest msg) ∧
    (∀ (msg : JsonValue) (key src : String) (rest : List (String × String))
       (p : JSONPath) (v : JsonValue),
      jsonpathParse src = some p →
      getValueFromStrOrJSONPath (.jsonPath p) msg = some v →
      extractSpecs ((key, src) :: rest) msg =
        (extractSpecs rest msg).map (fun tl => (key, v) :: tl)) ∧
    onMqttMessage [c7PayloadPathPoint] c7Msg =
      ⟨[⟨.str "m", [], [("a", .num 1)], none⟩], [.differentFieldCount], none⟩ := by
  refine ⟨?_, ?_, rfl⟩
  · intro msg key src rest p hp hv
    simp only [extractSpecs, hp, hv]
  · intro msg key src rest p v hp hv
    simp only [extractSpecs, hp, hv]

/-- Witness for C7 amended: the omitted key `b` and the kept key `a` of
the scenario, at the concrete envelope of payload `{"x": 1}`. -/
theorem c7_partial_extraction_amended_witness :
    extractSpecs [("b", "$.payload.y")] (buildMsg "t" (.obj [("x", .num 1)]) 0 0) =
      extractSpecs [] (buildMsg "t" (.obj [("x", .num 1)]) 0 0) ∧
    extractSpecs [("a", "$.payload.x"), ("b", "$.payload.y")]
        (buildMsg "t" (.obj [("x", .num 1)]) 0 0) =
      (extractSpecs [("b", "$.payload.y")]
        (buildMsg "t" (.obj [("x", .num 1)]) 0 0)).map
          (fun tl => ("a", JsonValue.num 1) :: tl) :=
  ⟨c7_partial_extraction_amended.1 _ "b" "$.payload.y" []
     ⟨[.field "payload", .field "y"]⟩ rfl rfl,
   c7_partial_extraction_amended.2.1 _ "a" "$.payload.x" [("b", "$.payload.y")]
     ⟨[.field "payload", .field "x"]⟩ (.num 1) rfl rfl⟩

/-! ### C8: empty payload means JSON null -/

/-- A rule matching every topic whose only field path selects into the
payload. -/
def c8Point : Point :=
  ⟨"#", .str "m", some [("value", "$.payload.value")], some [], none⟩

/-- C8: a payload decoding to the empty text is normalised to the text
`"null"` and parses to the JSON literal null, so the built envelope
carries a null payload; a field path selecting into the payload then
yields no value, and a rule whose only field is such a path produces no
record (the handler logs `empty fields` and returns) — for every topic,
timestamp and QoS. -/
theorem c8_empty_payload_null :
    (∀ (message : MqttMessage), message.payload = .utf8 "" →
      buildOrReuse message none =
        .ok (buildMsg message.topic .null message.timestamp message.qos)) ∧
    jsonpathParse "$.payload.value" = some ⟨[.field "payload", .field "value"]⟩ ∧
    (∀ (topic : String) (ts qos : Int),
      getValueFromStrOrJSONPath (.jsonPath ⟨[.field "payload", .field "value"]⟩)
        (buildMsg topic .null ts qos) = none) ∧
    (∀ (topic : String) (ts qos : Int),
      onMqttMessage [c8Point] ⟨topic, .utf8 "", ts, qos⟩ =
        ⟨[], [.emptyFields], none⟩) := by
  refine ⟨?_, rfl, fun topic ts qos => rfl, ?_⟩
  · intro message hp
    simp only [buildOrReuse, hp]
    rfl
  · intro topic ts qos
    have hb : buildOrReuse ⟨topic, .utf8 "", ts, qos⟩ none =
        .ok (buildMsg topic .null ts qos) := rfl
    have hstep : processPoint c8Point (buildMsg topic .null ts qos) =
        .skipped [.emptyFields] := rfl
    have hm : topicMatchesSub c8Point.topic topic = true :=
      topicMatchesSub_hash topic
    show processLoop ⟨topic, .utf8 "", ts, qos⟩ [c8Point] none [] [] = _
    rw [processLoop, hm]
    simp only [if_true, hb, hstep]
    rfl

/-- Witness for C8 at the concrete empty-payload message. -/
theorem c8_empty_payload_null_witness :
    buildOrReuse ⟨"sensors/kitchen/temp", .utf8 "", 7, 1⟩ none =
      .ok (buildMsg "sensors/kitchen/temp" .null 7 1) :=
  c8_empty_payload_null.1 ⟨"sensors/kitchen/temp", .utf8 "", 7, 1⟩ rfl

/-! ### C9: invalid UTF-8 payloads -/

/-- Counterexample to C9: the `.decode('utf-8')` call sits outside the
`try` block, so invalid UTF-8 is not a recoverable per-message failure:
the handler logs nothing and the `UnicodeDecodeError` escapes instead
of a normal return. -/
theorem c9_decode_uncaught_counterexample :
    onMqttMessage [sensorPoint] ⟨"sensors/kitchen/temp", .invalidUtf8, 0, 0⟩ =
      ⟨[], [], some .unicodeDecodeError⟩ :=
  rfl

/-- The loop on an undecodable payload, given at least one matching
rule: at the first matching rule the decode raises and the exception
propagates with no diagnostic logged and nothing written beyond the
accumulator. -/
theorem processLoop_decode_fail (message : MqttMessage)
    (hpayload : message.payload = .invalidUtf8) :
    ∀ (pts : List Point) (recs : List Record) (logs : List LogEvent),
    (∃ p ∈ pts, topicMatchesSub p.topic message.topic = true) →
    processLoop message pts none recs logs =
      ⟨recs, logs, some .unicodeDecodeError⟩ := by
  intro pts
  induction pts with
  | nil =>
    intro recs logs h
    rcases h with ⟨p, hp, _⟩
    cases hp
  | cons point rest ih =>
    intro recs logs h
    rw [processLoop]
    by_cases hm : topicMatchesSub point.topic message.topic = true
    · rw [hm]
      have hb : buildOrReuse message none = .error .decodeFail := by
        simp only [buildOrReuse, hpayload]
      simp only [if_true, hb]
    · rw [if_neg hm]
      refine ih recs logs ?_
      rcases h with ⟨p, hp, hpt⟩
      rcases List.mem_cons.mp hp with rfl | hmem
      · exact absurd hpt hm
      · exact ⟨p, hmem, hpt⟩

/-- C9 amended: for every message whose raw payload bytes are not valid
UTF-8 and whose topic matches at least one configured rule, the
`UnicodeDecodeError` raised by `.decode('utf-8')` (which sits outside
the `try` block) escapes the handler uncaught: no record is produced,
no diagnostic is logged by the handler, and the handler does not return
normally; when no rule matches, the payload is never decoded and the
handler returns normally with no record. -/
theorem c9_decode_error_uncaught_amended (points : List Point)
    (message : MqttMessage)
    (hpayload : message.payload = .invalidUtf8)
    (hmatch : ∃ p ∈ points, topicMatchesSub p.topic message.topic = true) :
    onMqttMessage points message = ⟨[], [], some .unicodeDecodeError⟩ :=
  processLoop_decode_fail message hpayload points [] [] hmatch

/-- Witness for C9 amended at a concrete undecodable message. -/
theorem c9_decode_error_uncaught_amended_witness :
    onMqttMessage [sensorPoint, sensorEmptyFieldsPoint]
      ⟨"sensors/kitchen/temp", .invalidUtf8, 0, 0⟩ =
      ⟨[], [], some .unicodeDecodeError⟩ :=
  c9_decode_error_uncaught_amended [sensorPoint, sensorEmptyFieldsPoint] _ rfl
    ⟨sensorPoint, List.mem_cons_self _ _, by decide⟩

/-! ### C10: empty versus absent tag specs -/

/-- A rule with one extractable field and no `tags` key at all. -/
def c10AbsentTagsPoint : Point :=
  ⟨"t", .str "m", some [("a", "$.payload.x")], none, none⟩

/-- The same rule with a present-but-empty tag mapping. -/
def c10EmptyTagsPoint : Point :=
  ⟨"t", .str "m", some [("a", "$.payload.x")], some [], none⟩

/-- Counterexample to C10: with the tag specs absent, a matching rule
with a non-empty extracted field set produces no record — the
unconditional `len(point['tags'])` raises a `KeyError` that escapes the
handler; only a present-but-empty tag mapping yields the claimed record
with an empty tag set. -/
theorem c10_absent_tags_counterexample :
    onMqttMessage [c10AbsentTagsPoint] ⟨"t", .utf8 "\x7b\"x\": 1\x7d", 0, 0⟩ =
      ⟨[], [], some .keyError⟩ ∧
    onMqttMessage [c10EmptyTagsPoint] ⟨"t", .utf8 "\x7b\"x\": 1\x7d", 0, 0⟩ =
      ⟨[⟨.str "m", [], [("a", .num 1)], none⟩], [], none⟩ :=
  ⟨rfl, rfl⟩

/-- C10 amended: an empty tag set is allowed only when the rule
declares a present-but-empty tag mapping — then a matching rule with a
non-empty extracted field set produces its record with an empty tag set
and the tag step does not raise; when the tag specs are absent, the
unconditional `len(point['tags'])` raises a `KeyError` and no record is
produced for the rule. -/
theorem c10_empty_tags_amended :
    (∀ (point : Point) (m mval : JsonValue) (fieldSpecs : List (String × String))
       (fieldVals : List (String × JsonValue)),
      point.tags = some [] →
      getValueFromStrOrJSONPath point.measurement m = some mval →
      point.fields = some fieldSpecs →
      extractSpecs fieldSpecs m = .ok fieldVals →
      fieldVals ≠ [] →
      processPoint point m =
        .wrote ⟨mval, [], fieldVals, point.database⟩
          (if fieldVals.length ≠ fieldSpecs.length
           then [.differentFieldCount] else [])) ∧
    (∀ (point : Point) (m mval : JsonValue) (fieldSpecs : List (String × String))
       (fieldVals : List (String × JsonValue)),
      point.tags = none →
      getValueFromStrOrJSONPath point.measurement m = some mval →
      point.fields = some fieldSpecs →
      extractSpecs fieldSpecs m = .ok fieldVals →
      fieldVals ≠ [] →
      processPoint point m =
        .raised .keyError
          (if fieldVals.length ≠ fieldSpecs.length
           then [.differentFieldCount] else [])) := by
  constructor
  · intro point m mval fieldSpecs fieldVals htags hmeas hf hex hne
    have hie : fieldVals.isEmpty = false := by
      simpa [List.isEmpty_iff] using hne
    simp [processPoint, hmeas, hf, hex, hie, htags, extractSpecs]
  · intro point m mval fieldSpecs fieldVals htags hmeas hf hex hne
    have hie : fieldVals.isEmpty = false := by
      simpa [List.isEmpty_iff] using hne
    simp [processPoint, hmeas, hf, hex, hie, htags]

/-- Witness for C10 amended at the two concrete rules. -/
theorem c10_empty_tags_amended_witness :
    processPoint c10EmptyTagsPoint (buildMsg "t" (.obj [("x", .num 1)]) 0 0) =
      .wrote ⟨.str "m", [], [("a", .num 1)], none⟩
        (if [("a", JsonValue.num 1)].length ≠ [("a", "$.payload.x")].length
         then [LogEvent.differentFieldCount] else []) ∧
    processPoint c10AbsentTagsPoint (buildMsg "t" (.obj [("x", .num 1)]) 0 0) =
      .raised .keyError
        (if [("a", JsonValue.num 1)].length ≠ [("a", "$.payload.x")].length
         then [LogEvent.differentFieldCount] else []) :=
  ⟨c10_empty_tags_amended.1 c10EmptyTagsPoint _ (.str "m") [("a", "$.payload.x")]
     [("a", .num 1)] rfl rfl rfl rfl (List.cons_ne_nil _ _),
   c10_empty_tags_amended.2 c10AbsentTagsPoint _ (.str "m") [("a", "$.payload.x")]
     [("a", .num 1)] rfl rfl rfl rfl (List.cons_ne_nil _ _)⟩

end Mqtt2InfluxDB

